import Mathlib

/-!
Shallow embedding of the `act-6.2` hotel-booking record-management system
(`customer.py`, `hotel.py`, `reservation.py`).

Each store is persisted as a JSON array; every operation loads the whole
collection, scans it linearly, mutates, and rewrites the file.  We model the
persisted collection as a `List` of records and each operation as a pure
function from the store (and its arguments) to a result paired with the new
persisted store.  An operation that fails before calling `save_all` leaves the
persisted store unchanged, which the embedding reflects by returning the input
list in those branches.

Python integers are modelled by `Int`; the `isinstance(x, int)` checks in the
source are absorbed by the type.  Python's truthiness test `not s` on a string
argument is `s = ""`.  `modify_*`'s `**kwargs` become a structure of optional
fields, applied exactly when present, in the source's order.
-/

set_option autoImplicit false

/-- A hotel record, as serialized by `Hotel.to_dict`:
`hotel_id`, `name`, `location`, `rooms` (total capacity),
`rooms_available`. -/
structure HotelRec where
  hotel_id : String
  name : String
  location : String
  rooms : Int
  rooms_available : Int
deriving DecidableEq

/-- A customer record, as serialized by `Customer.to_dict`. -/
structure CustomerRec where
  customer_id : String
  name : String
  email : String
deriving DecidableEq

/-- A reservation record, as serialized by `Reservation.to_dict`. -/
structure ReservationRec where
  reservation_id : String
  customer_id : String
  hotel_id : String
deriving DecidableEq

/-- The `load_all` static method shared verbatim by all three stores.
The backing file is `none` when `os.path.exists` is false, `some s` when the
file holds text `s`; `parse` abstracts `json.load`, returning `none` on
`JSONDecodeError`/`IOError`.  `load_all` returns `[]` when the file is
missing and `[]` when parsing fails (after printing a diagnostic). -/
def load_all {α : Type} (parse : String → Option (List α))
    (file : Option String) : List α :=
  match file with
  | none => []
  | some s => (parse s).getD []

namespace Hotel

/-- `Hotel.create_hotel`: fails if `hotel_id` or `name` is empty, if `rooms`
is not a positive integer, or if the id already exists; otherwise appends the
new record (with `rooms_available = rooms`) and saves.  Returns the created
record (`None` on failure in Python) together with the persisted store. -/
def create_hotel (hotel_id name loc : String) (rooms : Int)
    (store : List HotelRec) : Option HotelRec × List HotelRec :=
  if hotel_id = "" ∨ name = "" then (none, store)
  else if rooms ≤ 0 then (none, store)
  else if store.any (fun r => r.hotel_id = hotel_id) then (none, store)
  else
    let hotel : HotelRec := ⟨hotel_id, name, loc, rooms, rooms⟩
    (some hotel, store ++ [hotel])

/-- `Hotel.delete_hotel`: removes every record with the given id; fails (and
leaves the store unchanged) when none matched. -/
def delete_hotel (hotel_id : String) (store : List HotelRec) :
    Bool × List HotelRec :=
  if (store.filter (fun r => ¬ r.hotel_id = hotel_id)).length = store.length
  then (false, store)
  else (true, store.filter (fun r => ¬ r.hotel_id = hotel_id))

/-- The keyword arguments accepted by `Hotel.modify_hotel`. -/
structure HotelKw where
  name : Option String
  loc : Option String
  rooms : Option Int
deriving DecidableEq

/-- `Hotel.modify_hotel`: finds the first record with the given id; if a
`rooms` keyword is supplied it must be a positive integer, and
`rooms_available` is set to `max 0 (rooms_available + (new - old))` using the
old `rooms` value; then each supplied keyword among `name`, `location`,
`rooms` overwrites the field.  Saves and returns `True` on success; on any
failure the file is not rewritten. -/
def modify_hotel (hotel_id : String) (kw : HotelKw) :
    List HotelRec → Bool × List HotelRec
  | [] => (false, [])
  | r :: rs =>
    if r.hotel_id = hotel_id then
      match kw.rooms with
      | some v =>
        if v ≤ 0 then (false, r :: rs)
        else
          (true, { r with
            name := kw.name.getD r.name,
            location := kw.loc.getD r.location,
            rooms := v,
            rooms_available :=
              max 0 (r.rooms_available + (v - r.rooms)) } :: rs)
      | none =>
        (true, { r with
          name := kw.name.getD r.name,
          location := kw.loc.getD r.location } :: rs)
    else
      ((modify_hotel hotel_id kw rs).1, r :: (modify_hotel hotel_id kw rs).2)

/-- `Hotel.reserve_room`: finds the first record with the given id; fails if
`rooms_available <= 0`, otherwise decrements `rooms_available` by one and
saves.  Fails (leaving the file untouched) when the id is absent. -/
def reserve_room (hotel_id : String) :
    List HotelRec → Bool × List HotelRec
  | [] => (false, [])
  | r :: rs =>
    if r.hotel_id = hotel_id then
      if r.rooms_available ≤ 0 then (false, r :: rs)
      else (true, { r with rooms_available := r.rooms_available - 1 } :: rs)
    else
      ((reserve_room hotel_id rs).1, r :: (reserve_room hotel_id rs).2)

/-- `Hotel.cancel_reservation`: finds the first record with the given id;
fails if `rooms_available >= rooms`, otherwise increments `rooms_available`
by one and saves.  Fails (leaving the file untouched) when the id is
absent. -/
def cancel_reservation (hotel_id : String) :
    List HotelRec → Bool × List HotelRec
  | [] => (false, [])
  | r :: rs =>
    if r.hotel_id = hotel_id then
      if r.rooms_available ≥ r.rooms then (false, r :: rs)
      else (true, { r with rooms_available := r.rooms_available + 1 } :: rs)
    else
      ((cancel_reservation hotel_id rs).1,
       r :: (cancel_reservation hotel_id rs).2)

end Hotel

namespace Customer

/-- `Customer._validate_email`: an email is valid when it is nonempty and
holds an `@` character (Python's `"@" in email`, tested on the character
list of the string). -/
def validate_email (email : String) : Bool :=
  if email = "" then false else email.data.contains '@'

/-- `Customer.create_customer`: fails if `customer_id` or `name` is empty, if
the email is invalid, or if the id already exists; otherwise appends the new
record and saves. -/
def create_customer (customer_id name email : String)
    (store : List CustomerRec) : Option CustomerRec × List CustomerRec :=
  if customer_id = "" ∨ name = "" then (none, store)
  else if ¬ validate_email email then (none, store)
  else if store.any (fun r => r.customer_id = customer_id) then (none, store)
  else
    let c : CustomerRec := ⟨customer_id, name, email⟩
    (some c, store ++ [c])

/-- `Customer.delete_customer`: removes every record with the given id; fails
when none matched. -/
def delete_customer (customer_id : String) (store : List CustomerRec) :
    Bool × List CustomerRec :=
  if (store.filter (fun r => ¬ r.customer_id = customer_id)).length
      = store.length
  then (false, store)
  else (true, store.filter (fun r => ¬ r.customer_id = customer_id))

/-- The keyword arguments accepted by `Customer.modify_customer`. -/
structure CustomerKw where
  name : Option String
  email : Option String
deriving DecidableEq

/-- `Customer.modify_customer`: finds the first record with the given id; if
an `email` keyword is supplied it must be valid; then each supplied keyword
among `name`, `email` overwrites the field.  Saves and returns `True` on
success; on any failure the file is not rewritten. -/
def modify_customer (customer_id : String) (kw : CustomerKw) :
    List CustomerRec → Bool × List CustomerRec
  | [] => (false, [])
  | r :: rs =>
    if r.customer_id = customer_id then
      match kw.email with
      | some e =>
        if ¬ validate_email e then (false, r :: rs)
        else
          (true, { r with name := kw.name.getD r.name, email := e } :: rs)
      | none =>
        (true, { r with name := kw.name.getD r.name } :: rs)
    else
      ((modify_customer customer_id kw rs).1,
       r :: (modify_customer customer_id kw rs).2)

end Customer

namespace Reservation

/-- `Reservation.create_reservation`: fails if `reservation_id` is empty, if
it already exists, if the customer id is absent from the customer store, if
the hotel id is absent from the hotel store, or if `Hotel.reserve_room`
fails; otherwise appends the new record and saves.  Returns the created
record together with the persisted reservation store and the persisted hotel
store (which `Hotel.reserve_room` may have rewritten). -/
def create_reservation (reservation_id customer_id hotel_id : String)
    (resStore : List ReservationRec) (custStore : List CustomerRec)
    (hotelStore : List HotelRec) :
    Option ReservationRec × List ReservationRec × List HotelRec :=
  if reservation_id = "" then (none, resStore, hotelStore)
  else if resStore.any (fun r => r.reservation_id = reservation_id) then
    (none, resStore, hotelStore)
  else if ¬ custStore.any (fun c => c.customer_id = customer_id) then
    (none, resStore, hotelStore)
  else if ¬ hotelStore.any (fun h => h.hotel_id = hotel_id) then
    (none, resStore, hotelStore)
  else
    match Hotel.reserve_room hotel_id hotelStore with
    | (false, hs) => (none, resStore, hs)
    | (true, hs) =>
      let r : ReservationRec := ⟨reservation_id, customer_id, hotel_id⟩
      (some r, resStore ++ [r], hs)

/-- `Reservation.cancel_reservation`: finds the first record with the given
id (fails when absent); calls `Hotel.cancel_reservation` on its `hotel_id`,
ignoring the returned flag; then removes every record with the reservation id
and saves.  Returns `True` together with both persisted stores. -/
def cancel_reservation (reservation_id : String)
    (resStore : List ReservationRec) (hotelStore : List HotelRec) :
    Bool × List ReservationRec × List HotelRec :=
  match resStore.find? (fun r => r.reservation_id = reservation_id) with
  | none => (false, resStore, hotelStore)
  | some target =>
    (true,
     resStore.filter (fun r => ¬ r.reservation_id = reservation_id),
     (Hotel.cancel_reservation target.hotel_id hotelStore).2)

end Reservation

/-- The documented hotel invariant: `0 <= rooms_available <= rooms`. -/
def hotelInv (r : HotelRec) : Prop :=
  0 ≤ r.rooms_available ∧ r.rooms_available ≤ r.rooms

instance (r : HotelRec) : Decidable (hotelInv r) := by
  unfold hotelInv; infer_instance

/-- Every record of a hotel store satisfies the invariant. -/
def storeInv (store : List HotelRec) : Prop :=
  ∀ r ∈ store, hotelInv r

instance (store : List HotelRec) : Decidable (storeInv store) := by
  unfold storeInv; infer_instance

/-! ### Generic list lemmas -/

theorem find?_eq_some_split {α : Type} (p : α → Bool) (l : List α) (a : α)
    (h : l.find? p = some a) :
    ∃ pre post, l = pre ++ a :: post ∧ (∀ x ∈ pre, p x = false) ∧ p a = true := by
  induction l with
  | nil => simp [List.find?] at h
  | cons x xs ih =>
    rw [List.find?] at h
    cases hp : p x with
    | true =>
      rw [hp] at h
      refine ⟨[], xs, ?_, ?_, ?_⟩ <;> simp_all
    | false =>
      rw [hp] at h
      obtain ⟨pre, post, hsplit, hpre, ha⟩ := ih h
      exact ⟨x :: pre, post, by simp [hsplit], by
        intro y hy
        rcases List.mem_cons.mp hy with rfl | hy
        · exact hp
        · exact hpre y hy, ha⟩

theorem find?_append_cons {α : Type} (p : α → Bool) (pre : List α) (a : α)
    (post : List α) (hpre : ∀ x ∈ pre, p x = false) (ha : p a = true) :
    (pre ++ a :: post).find? p = some a := by
  induction pre with
  | nil => simp [List.find?, ha]
  | cons x xs ih =>
    have hx : p x = false := hpre x (List.mem_cons_self x xs)
    simp only [List.cons_append, List.find?, hx]
    exact ih (fun y hy => hpre y (List.mem_cons_of_mem x hy))

/-! ### `Hotel.reserve_room` characterization -/

theorem reserve_room_not_found (id : String) (store : List HotelRec)
    (h : ∀ r ∈ store, ¬ r.hotel_id = id) :
    Hotel.reserve_room id store = (false, store) := by
  induction store with
  | nil => rfl
  | cons r rs ih =>
    have hr : ¬ r.hotel_id = id := h r (List.mem_cons_self r rs)
    have ih' := ih (fun x hx => h x (List.mem_cons_of_mem r hx))
    simp [Hotel.reserve_room, hr, ih']

theorem reserve_room_found (id : String) (pre : List HotelRec) (h : HotelRec)
    (post : List HotelRec) (hpre : ∀ x ∈ pre, ¬ x.hotel_id = id)
    (hid : h.hotel_id = id) (hpos : 0 < h.rooms_available) :
    Hotel.reserve_room id (pre ++ h :: post) =
      (true, pre ++ { h with rooms_available := h.rooms_available - 1 } :: post) := by
  induction pre with
  | nil =>
    simp only [List.nil_append, Hotel.reserve_room, if_pos hid]
    rw [if_neg (by omega)]
  | cons x xs ih =>
    have hx : ¬ x.hotel_id = id := hpre x (List.mem_cons_self x xs)
    have ih' := ih (fun y hy => hpre y (List.mem_cons_of_mem x hy))
    simp [Hotel.reserve_room, hx, ih']

theorem reserve_room_found_exhausted (id : String) (pre : List HotelRec)
    (h : HotelRec) (post : List HotelRec)
    (hpre : ∀ x ∈ pre, ¬ x.hotel_id = id)
    (hid : h.hotel_id = id) (hle : h.rooms_available ≤ 0) :
    Hotel.reserve_room id (pre ++ h :: post) = (false, pre ++ h :: post) := by
  induction pre with
  | nil =>
    simp only [List.nil_append, Hotel.reserve_room, if_pos hid]
    rw [if_pos hle]
  | cons x xs ih =>
    have hx : ¬ x.hotel_id = id := hpre x (List.mem_cons_self x xs)
    have ih' := ih (fun y hy => hpre y (List.mem_cons_of_mem x hy))
    simp [Hotel.reserve_room, hx, ih']

theorem reserve_room_fail (id : String) (store : List HotelRec)
    (h : (Hotel.reserve_room id store).1 = false) :
    (Hotel.reserve_room id store).2 = store := by
  induction store with
  | nil => rfl
  | cons r rs ih =>
    by_cases hr : r.hotel_id = id
    · by_cases hav : r.rooms_available ≤ 0
      · simp [Hotel.reserve_room, hr, hav]
      · simp [Hotel.reserve_room, hr, hav] at h
    · simp only [Hotel.reserve_room, if_neg hr] at h ⊢
      rw [ih h]

theorem reserve_room_true_iff (id : String) (store : List HotelRec) :
    (Hotel.reserve_room id store).1 = true ↔
      ∃ h, store.find? (fun r => r.hotel_id = id) = some h ∧
        0 < h.rooms_available := by
  induction store with
  | nil => simp [Hotel.reserve_room, List.find?]
  | cons r rs ih =>
    by_cases hr : r.hotel_id = id
    · have hd : decide (r.hotel_id = id) = true := decide_eq_true hr
      by_cases hav : r.rooms_available ≤ 0
      · simp only [Hotel.reserve_room, if_pos hr, if_pos hav, List.find?, hd]
        simp
        omega
      · simp only [Hotel.reserve_room, if_pos hr, if_neg hav, List.find?, hd]
        simp
        omega
    · have hd : decide (r.hotel_id = id) = false := decide_eq_false hr
      simp only [Hotel.reserve_room, if_neg hr, List.find?, hd]
      exact ih

/-! ### `Hotel.cancel_reservation` characterization -/

theorem cancel_room_not_found (id : String) (store : List HotelRec)
    (h : ∀ r ∈ store, ¬ r.hotel_id = id) :
    Hotel.cancel_reservation id store = (false, store) := by
  induction store with
  | nil => rfl
  | cons r rs ih =>
    have hr : ¬ r.hotel_id = id := h r (List.mem_cons_self r rs)
    have ih' := ih (fun x hx => h x (List.mem_cons_of_mem r hx))
    simp [Hotel.cancel_reservation, hr, ih']

theorem cancel_room_found (id : String) (pre : List HotelRec) (h : HotelRec)
    (post : List HotelRec) (hpre : ∀ x ∈ pre, ¬ x.hotel_id = id)
    (hid : h.hotel_id = id) (hlt : h.rooms_available < h.rooms) :
    Hotel.cancel_reservation id (pre ++ h :: post) =
      (true, pre ++ { h with rooms_available := h.rooms_available + 1 } :: post) := by
  induction pre with
  | nil =>
    simp only [List.nil_append, Hotel.cancel_reservation, if_pos hid]
    rw [if_neg (by omega)]
  | cons x xs ih =>
    have hx : ¬ x.hotel_id = id := hpre x (List.mem_cons_self x xs)
    have ih' := ih (fun y hy => hpre y (List.mem_cons_of_mem x hy))
    simp [Hotel.cancel_reservation, hx, ih']

theorem cancel_room_found_full (id : String) (pre : List HotelRec)
    (h : HotelRec) (post : List HotelRec)
    (hpre : ∀ x ∈ pre, ¬ x.hotel_id = id)
    (hid : h.hotel_id = id) (hge : h.rooms_available ≥ h.rooms) :
    Hotel.cancel_reservation id (pre ++ h :: post) = (false, pre ++ h :: post) := by
  induction pre with
  | nil =>
    simp only [List.nil_append, Hotel.cancel_reservation, if_pos hid]
    rw [if_pos hge]
  | cons x xs ih =>
    have hx : ¬ x.hotel_id = id := hpre x (List.mem_cons_self x xs)
    have ih' := ih (fun y hy => hpre y (List.mem_cons_of_mem x hy))
    simp [Hotel.cancel_reservation, hx, ih']

theorem cancel_room_fail (id : String) (store : List HotelRec)
    (h : (Hotel.cancel_reservation id store).1 = false) :
    (Hotel.cancel_reservation id store).2 = store := by
  induction store with
  | nil => rfl
  | cons r rs ih =>
    by_cases hr : r.hotel_id = id
    · by_cases hav : r.rooms_available ≥ r.rooms
      · simp [Hotel.cancel_reservation, hr, hav]
      · simp [Hotel.cancel_reservation, hr, hav] at h
    · simp only [Hotel.cancel_reservation, if_neg hr] at h ⊢
      rw [ih h]

/-! ### Invariant preservation -/

theorem storeInv_cons (r : HotelRec) (rs : List HotelRec) :
    storeInv (r :: rs) ↔ hotelInv r ∧ storeInv rs := by
  simp [storeInv]

theorem create_hotel_inv (id name loc : String) (rooms : Int)
    (store : List HotelRec) (h : storeInv store) :
    storeInv (Hotel.create_hotel id name loc rooms store).2 := by
  unfold Hotel.create_hotel
  split
  · exact h
  · split
    · exact h
    · split
      · exact h
      · rename_i hrooms _
        intro r hr
        rcases List.mem_append.mp hr with hr | hr
        · exact h r hr
        · rcases List.mem_singleton.mp hr with rfl
          exact ⟨by show (0 : Int) ≤ rooms; omega,
                 by show rooms ≤ rooms; omega⟩

theorem delete_hotel_inv (id : String) (store : List HotelRec)
    (h : storeInv store) :
    storeInv (Hotel.delete_hotel id store).2 := by
  unfold Hotel.delete_hotel
  split
  · exact h
  · exact fun r hr => h r (List.mem_of_mem_filter hr)

theorem modify_hotel_inv (id : String) (kw : Hotel.HotelKw)
    (store : List HotelRec) (h : storeInv store) :
    storeInv (Hotel.modify_hotel id kw store).2 := by
  induction store with
  | nil => exact h
  | cons r rs ih =>
    rw [storeInv_cons] at h
    by_cases hr : r.hotel_id = id
    · cases hkw : kw.rooms with
      | some v =>
        by_cases hv : v ≤ 0
        · simp only [Hotel.modify_hotel, if_pos hr, hkw, if_pos hv]
          rw [storeInv_cons]; exact h
        · simp only [Hotel.modify_hotel, if_pos hr, hkw, if_neg hv]
          rw [storeInv_cons]
          refine ⟨?_, h.2⟩
          have := h.1
          unfold hotelInv at this ⊢
          simp only
          omega
      | none =>
        simp only [Hotel.modify_hotel, if_pos hr, hkw]
        rw [storeInv_cons]
        refine ⟨?_, h.2⟩
        have := h.1
        unfold hotelInv at this ⊢
        simpa using this
    · simp only [Hotel.modify_hotel, if_neg hr]
      rw [storeInv_cons]
      exact ⟨h.1, ih h.2⟩

theorem reserve_room_inv (id : String) (store : List HotelRec)
    (h : storeInv store) :
    storeInv (Hotel.reserve_room id store).2 := by
  induction store with
  | nil => exact h
  | cons r rs ih =>
    rw [storeInv_cons] at h
    by_cases hr : r.hotel_id = id
    · by_cases hav : r.rooms_available ≤ 0
      · simp only [Hotel.reserve_room, if_pos hr, if_pos hav]
        rw [storeInv_cons]; exact h
      · simp only [Hotel.reserve_room, if_pos hr, if_neg hav]
        rw [storeInv_cons]
        refine ⟨?_, h.2⟩
        have := h.1
        unfold hotelInv at this ⊢
        simp only
        omega
    · simp only [Hotel.reserve_room, if_neg hr]
      rw [storeInv_cons]
      exact ⟨h.1, ih h.2⟩

theorem cancel_room_inv (id : String) (store : List HotelRec)
    (h : storeInv store) :
    storeInv (Hotel.cancel_reservation id store).2 := by
  induction store with
  | nil => exact h
  | cons r rs ih =>
    rw [storeInv_cons] at h
    by_cases hr : r.hotel_id = id
    · by_cases hav : r.rooms_available ≥ r.rooms
      · simp only [Hotel.cancel_reservation, if_pos hr, if_pos hav]
        rw [storeInv_cons]; exact h
      · simp only [Hotel.cancel_reservation, if_pos hr, if_neg hav]
        rw [storeInv_cons]
        refine ⟨?_, h.2⟩
        have := h.1
        unfold hotelInv at this ⊢
        simp only
        omega
    · simp only [Hotel.cancel_reservation, if_neg hr]
      rw [storeInv_cons]
      exact ⟨h.1, ih h.2⟩

/-- Claim C1: starting from any hotel store whose records all satisfy
`0 ≤ rooms_available ≤ rooms`, each of the five store operations
(`create_hotel`, `modify_hotel` — including a rooms change —,
`reserve_room`, `cancel_reservation`, `delete_hotel`) yields a persisted
store whose records all still satisfy `0 ≤ rooms_available ≤ rooms`. -/
theorem hotel_ops_preserve_invariant (store : List HotelRec)
    (hinv : storeInv store) (id name loc : String) (rooms : Int)
    (kw : Hotel.HotelKw) :
    storeInv (Hotel.create_hotel id name loc rooms store).2 ∧
    storeInv (Hotel.modify_hotel id kw store).2 ∧
    storeInv (Hotel.reserve_room id store).2 ∧
    storeInv (Hotel.cancel_reservation id store).2 ∧
    storeInv (Hotel.delete_hotel id store).2 :=
  ⟨create_hotel_inv id name loc rooms store hinv,
   modify_hotel_inv id kw store hinv,
   reserve_room_inv id store hinv,
   cancel_room_inv id store hinv,
   delete_hotel_inv id store hinv⟩

/-- Witness for claim C1 at a concrete store, including a capacity-shrinking
rooms change. -/
theorem hotel_ops_preserve_invariant_witness :
    storeInv [⟨"h1", "Grand", "CDMX", 2, 1⟩] ∧
    storeInv (Hotel.modify_hotel "h1" ⟨none, none, some 1⟩
      [⟨"h1", "Grand", "CDMX", 2, 1⟩]).2 :=
  ⟨by decide,
   (hotel_ops_preserve_invariant [⟨"h1", "Grand", "CDMX", 2, 1⟩] (by decide)
      "h1" "N" "L" 1 ⟨none, none, some 1⟩).2.1⟩

/-! ### `Hotel.modify_hotel` characterization -/

theorem modify_hotel_found_rooms (id : String) (kw : Hotel.HotelKw) (v : Int)
    (pre : List HotelRec) (h : HotelRec) (post : List HotelRec)
    (hpre : ∀ x ∈ pre, ¬ x.hotel_id = id) (hid : h.hotel_id = id)
    (hkw : kw.rooms = some v) (hv : 0 < v) :
    Hotel.modify_hotel id kw (pre ++ h :: post) =
      (true, pre ++ { h with
        name := kw.name.getD h.name,
        location := kw.loc.getD h.location,
        rooms := v,
        rooms_available :=
          max 0 (h.rooms_available + (v - h.rooms)) } :: post) := by
  induction pre with
  | nil =>
    simp only [List.nil_append, Hotel.modify_hotel, if_pos hid, hkw]
    rw [if_neg (by omega)]
  | cons x xs ih =>
    have hx : ¬ x.hotel_id = id := hpre x (List.mem_cons_self x xs)
    have ih' := ih (fun y hy => hpre y (List.mem_cons_of_mem x hy))
    simp [Hotel.modify_hotel, hx, ih']

/-- Claim C4: on a store whose first record with the given id satisfies the
invariant and has `rooms_available > 0`, `reserve_room` succeeds,
`cancel_reservation` on the same id then succeeds, and the persisted store is
restored to its exact original state. -/
theorem reserve_then_release_roundtrip (id : String) (store : List HotelRec)
    (h : HotelRec)
    (hfind : store.find? (fun r => r.hotel_id = id) = some h)
    (hinv : hotelInv h) (hpos : 0 < h.rooms_available) :
    (Hotel.reserve_room id store).1 = true ∧
    (Hotel.cancel_reservation id (Hotel.reserve_room id store).2).1 = true ∧
    (Hotel.cancel_reservation id (Hotel.reserve_room id store).2).2 = store := by
  obtain ⟨pre, post, rfl, hpre, hid⟩ := find?_eq_some_split _ _ _ hfind
  have hpre' : ∀ x ∈ pre, ¬ x.hotel_id = id := by
    intro x hx
    have := hpre x hx
    simpa using this
  have hid' : h.hotel_id = id := by simpa using hid
  obtain ⟨a, b, c, d, e⟩ := h
  obtain ⟨hl, hu⟩ := hinv
  simp only at hl hu hpos hid'
  have hstep1 := reserve_room_found id pre ⟨a, b, c, d, e⟩ post hpre' hid' hpos
  have hfst1 : (Hotel.reserve_room id
      (pre ++ ⟨a, b, c, d, e⟩ :: post)).1 = true := by rw [hstep1]
  have hsnd1 : (Hotel.reserve_room id (pre ++ ⟨a, b, c, d, e⟩ :: post)).2 =
      pre ++ (⟨a, b, c, d, e - 1⟩ : HotelRec) :: post := by rw [hstep1]
  have hstep2 := cancel_room_found id pre (⟨a, b, c, d, e - 1⟩ : HotelRec)
    post hpre' hid' (by simp only; omega)
  have hfst2 : (Hotel.cancel_reservation id
      (pre ++ (⟨a, b, c, d, e - 1⟩ : HotelRec) :: post)).1 = true := by
    rw [hstep2]
  have hsnd2 : (Hotel.cancel_reservation id
      (pre ++ (⟨a, b, c, d, e - 1⟩ : HotelRec) :: post)).2 =
      pre ++ (⟨a, b, c, d, e - 1 + 1⟩ : HotelRec) :: post := by rw [hstep2]
  refine ⟨hfst1, ?_, ?_⟩
  · rw [hsnd1, hfst2]
  · rw [hsnd1, hsnd2]
    have : e - 1 + 1 = e := by omega
    rw [this]

/-- Witness for claim C4 at a concrete one-hotel store. -/
theorem reserve_then_release_roundtrip_witness :
    (Hotel.reserve_room "h1" [⟨"h1", "Grand", "CDMX", 2, 2⟩]).1 = true ∧
    (Hotel.cancel_reservation "h1"
      (Hotel.reserve_room "h1" [⟨"h1", "Grand", "CDMX", 2, 2⟩]).2).1 = true ∧
    (Hotel.cancel_reservation "h1"
      (Hotel.reserve_room "h1" [⟨"h1", "Grand", "CDMX", 2, 2⟩]).2).2 =
      [⟨"h1", "Grand", "CDMX", 2, 2⟩] :=
  reserve_then_release_roundtrip "h1" [⟨"h1", "Grand", "CDMX", 2, 2⟩]
    ⟨"h1", "Grand", "CDMX", 2, 2⟩ (by decide) (by decide) (by decide)

/-- Claim C6: on a store containing the given id, `modify_hotel` with a
positive `rooms` keyword `v` updates the first matching record, setting
`rooms := v` and `rooms_available := max 0 (rooms_available + (v - rooms))`
— clamped below at `0`, with no upper clamp at the new capacity — and
leaves every other record untouched. -/
theorem modify_hotel_rooms_delta (id : String) (kw : Hotel.HotelKw) (v : Int)
    (store : List HotelRec) (h : HotelRec)
    (hfind : store.find? (fun r => r.hotel_id = id) = some h)
    (hkw : kw.rooms = some v) (hv : 0 < v) :
    (Hotel.modify_hotel id kw store).1 = true ∧
    ∃ pre post, (∀ x ∈ pre, ¬ x.hotel_id = id) ∧
      store = pre ++ h :: post ∧
      (Hotel.modify_hotel id kw store).2 = pre ++ { h with
        name := kw.name.getD h.name,
        location := kw.loc.getD h.location,
        rooms := v,
        rooms_available :=
          max 0 (h.rooms_available + (v - h.rooms)) } :: post := by
  obtain ⟨pre, post, rfl, hpre, hid⟩ := find?_eq_some_split _ _ _ hfind
  have hpre' : ∀ x ∈ pre, ¬ x.hotel_id = id := by
    intro x hx
    have := hpre x hx
    simpa using this
  have hid' : h.hotel_id = id := by simpa using hid
  have hstep := modify_hotel_found_rooms id kw v pre h post hpre' hid' hkw hv
  refine ⟨by rw [hstep], pre, post, hpre', rfl, by rw [hstep]⟩

/-- Witness for claim C6: shrinking capacity 5 → 2 with 4 rooms free leaves
`rooms_available = 1`, and growing 2 → 9 with 1 free leaves `8`, above no
clamp applies. -/
theorem modify_hotel_rooms_delta_witness :
    (Hotel.modify_hotel "h1" ⟨none, none, some 2⟩
      [⟨"h1", "Grand", "CDMX", 5, 4⟩]).2 =
      [⟨"h1", "Grand", "CDMX", 2, 1⟩] := by
  have h := modify_hotel_rooms_delta "h1" ⟨none, none, some 2⟩ 2
    [⟨"h1", "Grand", "CDMX", 5, 4⟩] ⟨"h1", "Grand", "CDMX", 5, 4⟩
    (by decide) rfl (by decide)
  obtain ⟨-, pre, post, -, hsplit, hres⟩ := h
  have hlen := congrArg List.length hsplit
  simp [List.length_append] at hlen
  have hpre : pre = [] := List.length_eq_zero.mp (by omega)
  have hpost : post = [] := List.length_eq_zero.mp (by omega)
  subst hpre
  subst hpost
  rw [hres]
  decide

/-- Claim C5: for each of the three stores, a create call whose id is
already present fails (returns an absent result) and leaves every persisted
collection exactly as it was. -/
theorem duplicate_create_fails_unchanged :
    (∀ cid n e store,
      store.any (fun r => r.customer_id = cid) = true →
      (Customer.create_customer cid n e store).1 = none ∧
      (Customer.create_customer cid n e store).2 = store) ∧
    (∀ hid n loc rooms store,
      store.any (fun r => r.hotel_id = hid) = true →
      (Hotel.create_hotel hid n loc rooms store).1 = none ∧
      (Hotel.create_hotel hid n loc rooms store).2 = store) ∧
    (∀ rid cid hid rs cs hs,
      rs.any (fun r => r.reservation_id = rid) = true →
      (Reservation.create_reservation rid cid hid rs cs hs).1 = none ∧
      (Reservation.create_reservation rid cid hid rs cs hs).2.1 = rs ∧
      (Reservation.create_reservation rid cid hid rs cs hs).2.2 = hs) := by
  refine ⟨?_, ?_, ?_⟩
  · intro cid n e store hdup
    unfold Customer.create_customer
    split
    · exact ⟨rfl, rfl⟩
    · split <;> exact ⟨rfl, rfl⟩
  · intro hid n loc rooms store hdup
    unfold Hotel.create_hotel
    split
    · exact ⟨rfl, rfl⟩
    · split <;> exact ⟨rfl, rfl⟩
  · intro rid cid hid rs cs hs hdup
    unfold Reservation.create_reservation
    split <;> exact ⟨rfl, rfl, rfl⟩

/-- Witness for claim C5 on concrete stores with a duplicate id in each. -/
theorem duplicate_create_fails_unchanged_witness :
    (Customer.create_customer "c1" "Ann" "ann@mail" [⟨"c1", "Bob", "b@mail"⟩]).1
      = none ∧
    (Hotel.create_hotel "h1" "Grand" "CDMX" 3 [⟨"h1", "Grand", "CDMX", 2, 2⟩]).2
      = [⟨"h1", "Grand", "CDMX", 2, 2⟩] ∧
    (Reservation.create_reservation "r1" "c1" "h1" [⟨"r1", "c9", "h9"⟩] [] []).1
      = none :=
  ⟨(duplicate_create_fails_unchanged.1 "c1" "Ann" "ann@mail"
      [⟨"c1", "Bob", "b@mail"⟩] (by decide)).1,
   (duplicate_create_fails_unchanged.2.1 "h1" "Grand" "CDMX" 3
      [⟨"h1", "Grand", "CDMX", 2, 2⟩] (by decide)).2,
   (duplicate_create_fails_unchanged.2.2 "r1" "c1" "h1"
      [⟨"r1", "c9", "h9"⟩] [] [] (by decide)).1⟩

/-- Claim C8: for every store, `load_all` on a missing backing file, or on a
file whose contents do not parse as JSON, returns the empty collection
rather than signalling an error. -/
theorem load_all_error_returns_empty (α : Type)
    (parse : String → Option (List α)) (file : Option String)
    (h : file = none ∨ ∃ s, file = some s ∧ parse s = none) :
    load_all parse file = [] := by
  rcases h with rfl | ⟨s, rfl, hp⟩
  · rfl
  · simp [load_all, hp]

/-- Witness for claim C8 at a concrete corrupted file. -/
theorem load_all_error_returns_empty_witness :
    load_all (fun _ => none) (some "corrupted") = ([] : List HotelRec) :=
  load_all_error_returns_empty HotelRec (fun _ => none) (some "corrupted")
    (Or.inr ⟨"corrupted", rfl, rfl⟩)

/-! ### `Customer.modify_customer` characterization -/

theorem modify_customer_found (id : String) (kw : Customer.CustomerKw)
    (pre : List CustomerRec) (r : CustomerRec) (post : List CustomerRec)
    (hpre : ∀ x ∈ pre, ¬ x.customer_id = id) (hid : r.customer_id = id)
    (hemail : ∀ e, kw.email = some e → Customer.validate_email e = true) :
    Customer.modify_customer id kw (pre ++ r :: post) =
      (true, pre ++ { r with name := kw.name.getD r.name,
                             email := kw.email.getD r.email } :: post) := by
  induction pre with
  | nil =>
    cases hkw : kw.email with
    | none =>
      simp only [List.nil_append, Customer.modify_customer, if_pos hid, hkw]
      simp [Option.getD]
    | some e =>
      have hv := hemail e hkw
      simp only [List.nil_append, Customer.modify_customer, if_pos hid, hkw]
      rw [if_neg (not_not_intro hv)]
      simp [Option.getD]
  | cons x xs ih =>
    have hx : ¬ x.customer_id = id := hpre x (List.mem_cons_self x xs)
    have ih' := ih (fun y hy => hpre y (List.mem_cons_of_mem x hy))
    simp [Customer.modify_customer, hx, ih']

theorem modify_customer_fail (id : String) (kw : Customer.CustomerKw)
    (store : List CustomerRec)
    (h : (Customer.modify_customer id kw store).1 = false) :
    (Customer.modify_customer id kw store).2 = store := by
  induction store with
  | nil => rfl
  | cons r rs ih =>
    by_cases hr : r.customer_id = id
    · cases hkw : kw.email with
      | none => simp [Customer.modify_customer, hr, hkw] at h
      | some e =>
        by_cases hv : Customer.validate_email e = true
        · simp only [Customer.modify_customer, if_pos hr, hkw] at h
          rw [if_neg (not_not_intro hv)] at h
          simp at h
        · simp only [Customer.modify_customer, if_pos hr, hkw]
          rw [if_pos hv]
    · simp only [Customer.modify_customer, if_neg hr] at h ⊢
      rw [ih h]

theorem modify_customer_true_iff (id : String) (kw : Customer.CustomerKw)
    (store : List CustomerRec) :
    (Customer.modify_customer id kw store).1 = true ↔
      (∃ r ∈ store, r.customer_id = id) ∧
      (∀ e, kw.email = some e → Customer.validate_email e = true) := by
  induction store with
  | nil => simp [Customer.modify_customer]
  | cons r rs ih =>
    by_cases hr : r.customer_id = id
    · cases hkw : kw.email with
      | none =>
        simp only [Customer.modify_customer, if_pos hr, hkw]
        constructor
        · intro _
          exact ⟨⟨r, List.mem_cons_self r rs, hr⟩, by simp⟩
        · intro _
          trivial
      | some e =>
        by_cases hv : Customer.validate_email e = true
        · simp only [Customer.modify_customer, if_pos hr, hkw]
          rw [if_neg (not_not_intro hv)]
          constructor
          · intro _
            refine ⟨⟨r, List.mem_cons_self r rs, hr⟩, ?_⟩
            intro e' he'
            exact Option.some.inj he' ▸ hv
          · intro _
            trivial
        · simp only [Customer.modify_customer, if_pos hr, hkw]
          rw [if_pos hv]
          constructor
          · intro hcontra
            exact absurd hcontra (by simp)
          · rintro ⟨-, hall⟩
            exact absurd (hall e rfl) hv
    · simp only [Customer.modify_customer, if_neg hr]
      rw [ih]
      constructor
      · rintro ⟨⟨x, hx, hxid⟩, he⟩
        exact ⟨⟨x, List.mem_cons_of_mem r hx, hxid⟩, he⟩
      · rintro ⟨⟨x, hx, hxid⟩, he⟩
        rcases List.mem_cons.mp hx with rfl | hx
        · exact absurd hxid hr
        · exact ⟨⟨x, hx, hxid⟩, he⟩

/-- Claim C7: `modify_customer` succeeds exactly when the id is present and
any supplied new email is valid (nonempty and containing `@`); on failure
the persisted store is unchanged; on success only the supplied fields of the
first matching record change — `customer_id`, unsupplied fields, and every
other record are untouched. -/
theorem modify_customer_spec (id : String) (kw : Customer.CustomerKw)
    (store : List CustomerRec) :
    ((Customer.modify_customer id kw store).1 = true ↔
      (∃ r ∈ store, r.customer_id = id) ∧
      (∀ e, kw.email = some e → Customer.validate_email e = true)) ∧
    ((Customer.modify_customer id kw store).1 = false →
      (Customer.modify_customer id kw store).2 = store) ∧
    (∀ pre r post, store = pre ++ r :: post →
      (∀ x ∈ pre, ¬ x.customer_id = id) → r.customer_id = id →
      (∀ e, kw.email = some e → Customer.validate_email e = true) →
      (Customer.modify_customer id kw store).2 =
        pre ++ { r with name := kw.name.getD r.name,
                        email := kw.email.getD r.email } :: post) := by
  refine ⟨modify_customer_true_iff id kw store,
          modify_customer_fail id kw store, ?_⟩
  rintro pre r post rfl hpre hid hemail
  rw [modify_customer_found id kw pre r post hpre hid hemail]

/-- Witness for claim C7: a concrete modify that changes only the email. -/
theorem modify_customer_spec_witness :
    (Customer.modify_customer "c1" ⟨none, some "new@mail"⟩
      [⟨"c0", "Zed", "z@mail"⟩, ⟨"c1", "Ann", "a@mail"⟩]).2 =
      [⟨"c0", "Zed", "z@mail"⟩, ⟨"c1", "Ann", "new@mail"⟩] := by
  have h := (modify_customer_spec "c1" ⟨none, some "new@mail"⟩
    [⟨"c0", "Zed", "z@mail"⟩, ⟨"c1", "Ann", "a@mail"⟩]).2.2
    [⟨"c0", "Zed", "z@mail"⟩] ⟨"c1", "Ann", "a@mail"⟩ [] rfl
    (by decide) (by decide) (by decide)
  rw [h]
  decide

/-! ### `Reservation.create_reservation` characterization -/

theorem create_res_empty_id (rid cid hid : String)
    (resStore : List ReservationRec) (custStore : List CustomerRec)
    (hotelStore : List HotelRec) (h1 : rid = "") :
    Reservation.create_reservation rid cid hid resStore custStore hotelStore
      = (none, resStore, hotelStore) := by
  unfold Reservation.create_reservation
  rw [if_pos h1]

theorem create_res_dup (rid cid hid : String)
    (resStore : List ReservationRec) (custStore : List CustomerRec)
    (hotelStore : List HotelRec) (h1 : ¬ rid = "")
    (h2 : resStore.any (fun r => r.reservation_id = rid) = true) :
    Reservation.create_reservation rid cid hid resStore custStore hotelStore
      = (none, resStore, hotelStore) := by
  unfold Reservation.create_reservation
  rw [if_neg h1, if_pos h2]

theorem create_res_no_customer (rid cid hid : String)
    (resStore : List ReservationRec) (custStore : List CustomerRec)
    (hotelStore : List HotelRec) (h1 : ¬ rid = "")
    (h2 : ¬ resStore.any (fun r => r.reservation_id = rid) = true)
    (h3 : ¬ custStore.any (fun c => c.customer_id = cid) = true) :
    Reservation.create_reservation rid cid hid resStore custStore hotelStore
      = (none, resStore, hotelStore) := by
  unfold Reservation.create_reservation
  rw [if_neg h1, if_neg h2, if_pos h3]

theorem create_res_no_hotel (rid cid hid : String)
    (resStore : List ReservationRec) (custStore : List CustomerRec)
    (hotelStore : List HotelRec) (h1 : ¬ rid = "")
    (h2 : ¬ resStore.any (fun r => r.reservation_id = rid) = true)
    (h3 : custStore.any (fun c => c.customer_id = cid) = true)
    (h4 : ¬ hotelStore.any (fun h => h.hotel_id = hid) = true) :
    Reservation.create_reservation rid cid hid resStore custStore hotelStore
      = (none, resStore, hotelStore) := by
  unfold Reservation.create_reservation
  rw [if_neg h1, if_neg h2, if_neg (not_not_intro h3), if_pos h4]

theorem create_res_reserve_step (rid cid hid : String)
    (resStore : List ReservationRec) (custStore : List CustomerRec)
    (hotelStore : List HotelRec) (h1 : ¬ rid = "")
    (h2 : ¬ resStore.any (fun r => r.reservation_id = rid) = true)
    (h3 : custStore.any (fun c => c.customer_id = cid) = true)
    (h4 : hotelStore.any (fun h => h.hotel_id = hid) = true) :
    Reservation.create_reservation rid cid hid resStore custStore hotelStore
      = (match Hotel.reserve_room hid hotelStore with
         | (false, hs) => (none, resStore, hs)
         | (true, hs) =>
           (some ⟨rid, cid, hid⟩, resStore ++ [(⟨rid, cid, hid⟩ : ReservationRec)], hs)) := by
  unfold Reservation.create_reservation
  rw [if_neg h1, if_neg h2, if_neg (not_not_intro h3), if_neg (not_not_intro h4)]

/-- Claim C3: `create_reservation` fails exactly when the reservation id is
empty, already used, the customer id is absent, the hotel id is absent, or
the referenced hotel (the first match) has `rooms_available = 0`; otherwise
it succeeds, appends the new record to the reservation store, and decrements
the referenced hotel's `rooms_available` by one.  The hotel store is assumed
to satisfy the documented invariant. -/
theorem create_reservation_spec (rid cid hid : String)
    (resStore : List ReservationRec) (custStore : List CustomerRec)
    (hotelStore : List HotelRec) (hinv : storeInv hotelStore) :
    ((Reservation.create_reservation rid cid hid resStore custStore
        hotelStore).1 = none ↔
      rid = "" ∨
      resStore.any (fun r => r.reservation_id = rid) = true ∨
      custStore.any (fun c => c.customer_id = cid) = false ∨
      hotelStore.any (fun h => h.hotel_id = hid) = false ∨
      (∃ h, hotelStore.find? (fun x => x.hotel_id = hid) = some h ∧
        h.rooms_available = 0)) ∧
    (¬ (Reservation.create_reservation rid cid hid resStore custStore
        hotelStore).1 = none →
      (Reservation.create_reservation rid cid hid resStore custStore
        hotelStore).2.1 = resStore ++ [(⟨rid, cid, hid⟩ : ReservationRec)] ∧
      ∃ pre h post, (∀ x ∈ pre, ¬ x.hotel_id = hid) ∧
        hotelStore = pre ++ h :: post ∧
        (Reservation.create_reservation rid cid hid resStore custStore
          hotelStore).2.2 =
          pre ++ { h with rooms_available := h.rooms_available - 1 } :: post) := by
  by_cases h1 : rid = ""
  · rw [create_res_empty_id rid cid hid resStore custStore hotelStore h1]
    exact ⟨⟨fun _ => Or.inl h1, fun _ => rfl⟩, fun hne => absurd rfl hne⟩
  · by_cases h2 : resStore.any (fun r => r.reservation_id = rid) = true
    · rw [create_res_dup rid cid hid resStore custStore hotelStore h1 h2]
      exact ⟨⟨fun _ => Or.inr (Or.inl h2), fun _ => rfl⟩,
             fun hne => absurd rfl hne⟩
    · by_cases h3 : custStore.any (fun c => c.customer_id = cid) = true
      · by_cases h4 : hotelStore.any (fun h => h.hotel_id = hid) = true
        · have hsome : (hotelStore.find?
              (fun x => x.hotel_id = hid)).isSome := by
            rw [List.find?_isSome]
            simpa using h4
          obtain ⟨h0, hfind⟩ := Option.isSome_iff_exists.mp hsome
          have hmem := List.mem_of_find?_eq_some hfind
          have hinv0 := hinv h0 hmem
          obtain ⟨pre, post, hsplit, hpre, hp⟩ :=
            find?_eq_some_split _ _ _ hfind
          subst hsplit
          have hpre' : ∀ x ∈ pre, ¬ x.hotel_id = hid := by
            intro x hx
            have := hpre x hx
            simpa using this
          have hid0 : h0.hotel_id = hid := by simpa using hp
          rw [create_res_reserve_step rid cid hid resStore custStore
            (pre ++ h0 :: post) h1 h2 h3 h4]
          by_cases hz : h0.rooms_available ≤ 0
          · rw [reserve_room_found_exhausted hid pre h0 post
              hpre' hid0 hz]
            refine ⟨⟨fun _ => ?_, fun _ => rfl⟩, fun hne => absurd rfl hne⟩
            refine Or.inr (Or.inr (Or.inr (Or.inr ⟨h0, hfind, ?_⟩)))
            unfold hotelInv at hinv0
            omega
          · rw [reserve_room_found hid pre h0 post hpre' hid0
              (by omega)]
            refine ⟨⟨?_, ?_⟩, ?_⟩
            · intro hcontra
              exact absurd hcontra (by simp)
            · rintro (h | h | h | h | ⟨h', hfind', hz'⟩)
              · exact absurd h h1
              · exact absurd h h2
              · rw [h3] at h
                simp at h
              · rw [h4] at h
                simp at h
              · rw [hfind] at hfind'
                obtain rfl := Option.some.inj hfind'
                exact absurd hz' (by omega)
            · intro _
              exact ⟨rfl, pre, h0, post, hpre', rfl, rfl⟩
        · rw [create_res_no_hotel rid cid hid resStore custStore hotelStore
            h1 h2 h3 h4]
          refine ⟨⟨fun _ => ?_, fun _ => rfl⟩, fun hne => absurd rfl hne⟩
          exact Or.inr (Or.inr (Or.inr (Or.inl (by simpa using h4))))
      · rw [create_res_no_customer rid cid hid resStore custStore hotelStore
          h1 h2 h3]
        refine ⟨⟨fun _ => ?_, fun _ => rfl⟩, fun hne => absurd rfl hne⟩
        exact Or.inr (Or.inr (Or.inl (by simpa using h3)))

/-- Witness for claim C3: a successful creation against a hotel with one
free room, and the resulting decrement. -/
theorem create_reservation_spec_witness :
    ¬ (Reservation.create_reservation "r1" "c1" "h1" [] [⟨"c1", "Ann", "a@m"⟩]
        [⟨"h1", "Grand", "CDMX", 2, 1⟩]).1 = none ∧
    (Reservation.create_reservation "r1" "c1" "h1" [] [⟨"c1", "Ann", "a@m"⟩]
        [⟨"h1", "Grand", "CDMX", 2, 1⟩]).2.1 = [⟨"r1", "c1", "h1"⟩] := by
  have h := create_reservation_spec "r1" "c1" "h1" [] [⟨"c1", "Ann", "a@m"⟩]
    [⟨"h1", "Grand", "CDMX", 2, 1⟩] (by decide)
  have hne : ¬ (Reservation.create_reservation "r1" "c1" "h1" []
      [⟨"c1", "Ann", "a@m"⟩] [⟨"h1", "Grand", "CDMX", 2, 1⟩]).1 = none := by
    decide
  refine ⟨hne, ?_⟩
  rw [(h.2 hne).1]
  decide

/-- Claim C9: whenever `create_reservation` fails, neither the reservation
store nor the hotel store is rewritten: both persisted collections are
exactly the input ones. -/
theorem create_reservation_fail_no_write (rid cid hid : String)
    (resStore : List ReservationRec) (custStore : List CustomerRec)
    (hotelStore : List HotelRec)
    (h : (Reservation.create_reservation rid cid hid resStore custStore
      hotelStore).1 = none) :
    (Reservation.create_reservation rid cid hid resStore custStore
      hotelStore).2.1 = resStore ∧
    (Reservation.create_reservation rid cid hid resStore custStore
      hotelStore).2.2 = hotelStore := by
  by_cases h1 : rid = ""
  · rw [create_res_empty_id rid cid hid resStore custStore hotelStore h1]
    exact ⟨rfl, rfl⟩
  · by_cases h2 : resStore.any (fun r => r.reservation_id = rid) = true
    · rw [create_res_dup rid cid hid resStore custStore hotelStore h1 h2]
      exact ⟨rfl, rfl⟩
    · by_cases h3 : custStore.any (fun c => c.customer_id = cid) = true
      · by_cases h4 : hotelStore.any (fun x => x.hotel_id = hid) = true
        · rw [create_res_reserve_step rid cid hid resStore custStore
            hotelStore h1 h2 h3 h4] at h ⊢
          rcases hres : Hotel.reserve_room hid hotelStore with ⟨b, hs⟩
          cases b with
          | false =>
            refine ⟨rfl, ?_⟩
            have hfail : (Hotel.reserve_room hid hotelStore).1 = false := by
              rw [hres]
            have hunch := reserve_room_fail hid hotelStore hfail
            rw [hres] at hunch
            exact hunch
          | true =>
            rw [hres] at h
            exact Option.noConfusion h
        · rw [create_res_no_hotel rid cid hid resStore custStore hotelStore
            h1 h2 h3 h4]
          exact ⟨rfl, rfl⟩
      · rw [create_res_no_customer rid cid hid resStore custStore hotelStore
          h1 h2 h3]
        exact ⟨rfl, rfl⟩

/-- Witness for claim C9: a creation failing on exhausted capacity leaves
both stores untouched. -/
theorem create_reservation_fail_no_write_witness :
    (Reservation.create_reservation "r1" "c1" "h1" [] [⟨"c1", "Ann", "a@m"⟩]
      [⟨"h1", "Grand", "CDMX", 2, 0⟩]).2.1 = [] ∧
    (Reservation.create_reservation "r1" "c1" "h1" [] [⟨"c1", "Ann", "a@m"⟩]
      [⟨"h1", "Grand", "CDMX", 2, 0⟩]).2.2 =
      [⟨"h1", "Grand", "CDMX", 2, 0⟩] :=
  create_reservation_fail_no_write "r1" "c1" "h1" [] [⟨"c1", "Ann", "a@m"⟩]
    [⟨"h1", "Grand", "CDMX", 2, 0⟩] (by decide)

/-- Claim C10: when the reservation id is present,
`Reservation.cancel_reservation` returns success and removes the matching
records for every hotel store whatsoever; the flag returned by
`Hotel.cancel_reservation` is ignored, and when the hotel-side release fails
the hotel store is left unchanged. -/
theorem cancel_reservation_ignores_hotel_result (rid : String)
    (resStore : List ReservationRec) (hotelStore : List HotelRec)
    (t : ReservationRec)
    (hfind : resStore.find? (fun r => r.reservation_id = rid) = some t) :
    (Reservation.cancel_reservation rid resStore hotelStore).1 = true ∧
    (Reservation.cancel_reservation rid resStore hotelStore).2.1 =
      resStore.filter (fun r => ¬ r.reservation_id = rid) ∧
    ((Hotel.cancel_reservation t.hotel_id hotelStore).1 = false →
      (Reservation.cancel_reservation rid resStore hotelStore).2.2 =
        hotelStore) := by
  unfold Reservation.cancel_reservation
  rw [hfind]
  exact ⟨rfl, rfl, fun hfail => cancel_room_fail t.hotel_id hotelStore hfail⟩

/-- Witness for claim C10: cancelling succeeds although the referenced hotel
is absent from the hotel store. -/
theorem cancel_reservation_ignores_hotel_result_witness :
    (Reservation.cancel_reservation "r1" [⟨"r1", "c1", "h1"⟩] []).1 = true ∧
    (Reservation.cancel_reservation "r1" [⟨"r1", "c1", "h1"⟩] []).2.2 =
      ([] : List HotelRec) := by
  have h := cancel_reservation_ignores_hotel_result "r1"
    [⟨"r1", "c1", "h1"⟩] [] ⟨"r1", "c1", "h1"⟩ (by decide)
  exact ⟨h.1, h.2.2 (by decide)⟩

/-- Counterexample to claim C2 as stated: with reservation store
`[r1 ↦ h1]` and hotel store `[h1 : rooms = 1, rooms_available = 1]` (the
hotel already fully available), cancelling `r1` removes the reservation but
leaves the hotel store unchanged — `rooms_available` stays `1` instead of
increasing to `2` as the claim demands. -/
theorem cancel_reservation_release_counterexample :
    (Reservation.cancel_reservation "r1" [⟨"r1", "c1", "h1"⟩]
      [⟨"h1", "Grand", "CDMX", 1, 1⟩]).1 = true ∧
    (Reservation.cancel_reservation "r1" [⟨"r1", "c1", "h1"⟩]
      [⟨"h1", "Grand", "CDMX", 1, 1⟩]).2.1 = [] ∧
    (Reservation.cancel_reservation "r1" [⟨"r1", "c1", "h1"⟩]
      [⟨"h1", "Grand", "CDMX", 1, 1⟩]).2.2 =
      [⟨"h1", "Grand", "CDMX", 1, 1⟩] ∧
    ¬ (Reservation.cancel_reservation "r1" [⟨"r1", "c1", "h1"⟩]
      [⟨"h1", "Grand", "CDMX", 1, 1⟩]).2.2 =
      [⟨"h1", "Grand", "CDMX", 1, 2⟩] := by
  decide

/-- Claim C2 (amended): when the reservation id is present and the first
matching record's referenced hotel exists in the hotel store with
`rooms_available < rooms` (so that the hotel-side release succeeds),
`Reservation.cancel_reservation` removes the reservation records with that
id and increments that hotel's `rooms_available` by exactly one. -/
theorem cancel_reservation_removes_and_releases (rid : String)
    (resStore : List ReservationRec) (hotelStore : List HotelRec)
    (t : ReservationRec) (pre : List HotelRec) (h : HotelRec)
    (post : List HotelRec)
    (hfind : resStore.find? (fun r => r.reservation_id = rid) = some t)
    (hpre : ∀ x ∈ pre, ¬ x.hotel_id = t.hotel_id)
    (hsplit : hotelStore = pre ++ h :: post)
    (hid : h.hotel_id = t.hotel_id)
    (hlt : h.rooms_available < h.rooms) :
    (Reservation.cancel_reservation rid resStore hotelStore).1 = true ∧
    (Reservation.cancel_reservation rid resStore hotelStore).2.1 =
      resStore.filter (fun r => ¬ r.reservation_id = rid) ∧
    (Reservation.cancel_reservation rid resStore hotelStore).2.2 =
      pre ++ { h with rooms_available := h.rooms_available + 1 } :: post := by
  subst hsplit
  unfold Reservation.cancel_reservation
  rw [hfind]
  refine ⟨rfl, rfl, ?_⟩
  have hstep := cancel_room_found t.hotel_id pre h post hpre hid hlt
  exact congrArg Prod.snd hstep

/-- Witness for claim C2 (amended) at a concrete pair of stores. -/
theorem cancel_reservation_removes_and_releases_witness :
    (Reservation.cancel_reservation "r1" [⟨"r1", "c1", "h1"⟩]
      [⟨"h1", "Grand", "CDMX", 2, 1⟩]).2.2 =
      [⟨"h1", "Grand", "CDMX", 2, 2⟩] := by
  have h := cancel_reservation_removes_and_releases "r1"
    [⟨"r1", "c1", "h1"⟩] [⟨"h1", "Grand", "CDMX", 2, 1⟩]
    ⟨"r1", "c1", "h1"⟩ [] ⟨"h1", "Grand", "CDMX", 2, 1⟩ []
    (by decide) (by decide) rfl (by decide) (by decide)
  rw [h.2.2]
  decide
